import Mathlib

/-!
Verification of the DPF JACK bridge (`src/distrho/src/DistrhoPluginJACK.cpp`,
class `PluginJack`) against its natural-language specification.

The embedding models the full-featured build configuration (UI, MIDI input,
programs, time position and parameter-value-change requests enabled), which is
the configuration every claim is about.  Parameter values (C `float`) are
modelled as rationals; machine floats never overflow in the modelled code
paths, and every claim about values is stated relative to the approximate
equality test `d_isEqual` exactly as the code is.  The DSP core is an external
collaborator: its parameter storage is modelled as explicit state, and its
`loadProgram` behaviour is an arbitrary function argument `load`; calls into it
are recorded in an explicit trace.
-/

namespace DPF

set_option maxRecDepth 8000

/-- Modelled from the spec: the approximate-equality test `d_isEqual` on
parameter values (`DistrhoUtils.hpp` is not part of the sources; the spec
describes "an approximate-equality test (to avoid float-noise churn)").  It is
`|a - b| < ε` with `ε = 2⁻²³` (single-precision machine epsilon), written with
cross-multiplied integer arithmetic: `8388608 = 2 ^ 23`. -/
def d_isEqual (a b : ℚ) : Bool :=
  decide ((a.num * (b.den : Int) - b.num * (a.den : Int)).natAbs * 8388608 < a.den * b.den)

/-- Source `d_isNotEqual`: negation of the approximate-equality test. -/
def d_isNotEqual (a b : ℚ) : Bool :=
  ! d_isEqual a b

/-- Parameter ranges, fields in source order (`def`, `min`, `max`); `def` is a
Lean keyword so the fields carry a `Value` suffix. -/
structure ParameterRanges where
  defValue : ℚ
  minValue : ℚ
  maxValue : ℚ
deriving DecidableEq

/-- Modelled from the spec: `ParameterRanges::getUnnormalizedValue`
(`DistrhoDetails.hpp` is not part of the sources; the spec says "scale the
0–127 value to the parameter's declared range"). -/
def getUnnormalizedValue (r : ParameterRanges) (value : ℚ) : ℚ :=
  r.minValue + value * (r.maxValue - r.minValue)

/-- Modelled from the spec: the trigger hint mask `kParameterIsTrigger`
(`DistrhoDetails.hpp` is not part of the sources; the spec describes hints as a
"bitmask including 'is trigger', 'is boolean'", the trigger mask containing the
boolean bit).  The exact numeric value is irrelevant to every claim. -/
def kParameterIsTrigger : Nat := 0x22

/-- One DSP-core parameter as seen through the `PluginExporter` accessors used
by `PluginJack`: current value, direction, hints, CC mapping and ranges. -/
structure Parameter where
  value : ℚ
  isOutput : Bool
  hints : Nat
  midiCC : Nat
  ranges : ParameterRanges
deriving DecidableEq

/-- Per-parameter bridge-side bookkeeping: the parameter itself plus the
`fParametersChanged[i]` dirty flag and the `fLastOutputValues[i]` cache. -/
structure ParamSlot where
  param : Parameter
  changed : Bool
  lastOutput : ℚ
deriving DecidableEq

/-- The bridge state of `PluginJack` relevant to the claims: the parameter
slots, the program count of the DSP core, the pending program-change
notification `fProgramChanged`, and a trace of `loadProgram` calls issued to
the DSP core. -/
structure BridgeState where
  slots : List ParamSlot
  programCount : Nat
  programChanged : Int
  dspProgramLoads : List Nat
deriving DecidableEq

/-- A host MIDI event as fetched by `jackbridge_midi_event_get`
(`jack_midi_event_t`): frame time, payload size and payload bytes. -/
structure JackMidiEvent where
  time : Nat
  size : Nat
  buffer : List Nat
deriving DecidableEq

/-- Modelled from the spec: `MidiEvent::kDataSize`, the small fixed inline
payload capacity (the `MidiEvent` declaration is not part of the sources). -/
def kDataSize : Nat := 4

/-- A DPF `MidiEvent` as filled in by `jackProcess`: frame offset, size,
inline data bytes or a cycle-scoped external reference. -/
structure MidiEvent where
  frame : Nat
  size : Nat
  data : List Nat
  dataExt : Option (List Nat)
deriving DecidableEq

/-- A call delivered to the UI object (`fUI.parameterChanged` /
`fUI.programLoaded`). -/
inductive UICall where
  | parameterChanged (index : Nat) (value : ℚ)
  | programLoaded (index : Nat)
deriving DecidableEq

/-- The DSP core's `loadProgram` behaviour, supplied as an argument: given the
program index and the current parameter vector it yields the replaced
parameter vector.  The bridge treats the DSP core as an external
collaborator. -/
def LoadFn : Type := Nat → List Parameter → List Parameter

/-- Source `jack_position_t`: the host transport snapshot fields read by
`jackProcess` (two atomicity markers, frame, validity flags and the
bar/beat/tick block). -/
structure jack_position_t where
  unique_1 : Nat
  unique_2 : Nat
  frame : Nat
  valid : Nat
  bar : Int
  beat : Int
  tick : Int
  tick_double : ℚ
  bar_start_tick : ℚ
  beats_per_bar : ℚ
  beat_type : ℚ
  ticks_per_beat : ℚ
  beats_per_minute : ℚ
deriving DecidableEq

/-- Modelled from the spec: the JACK `JackPositionBBT` validity flag bit (the
JACK headers are not part of the sources); its exact value is irrelevant to
every claim. -/
def JackPositionBBT : Nat := 0x10

/-- Modelled from the spec: the JACK `JackTickDouble` validity flag bit (the
JACK headers are not part of the sources); its exact value is irrelevant to
every claim. -/
def JackTickDouble : Nat := 0x200

/-- The bar-beat-tick block of DPF's `TimePosition`. -/
structure TimeBBT where
  valid : Bool
  bar : Int
  beat : Int
  tick : ℚ
  barStartTick : ℚ
  beatsPerBar : ℚ
  beatType : ℚ
  ticksPerBeat : ℚ
  beatsPerMinute : ℚ
deriving DecidableEq

/-- DPF's `TimePosition` as filled in by `jackProcess`: playing flag, frame
and the bar-beat-tick block. -/
structure TimePosition where
  playing : Bool
  frame : Nat
  bbt : TimeBBT
deriving DecidableEq

/-- The bar-beat-tick block copied from a host snapshot when the host flags it
present (`pos.valid & JackPositionBBT`), lines 353-373 of
`DistrhoPluginJACK.cpp`: all fields are copied, the tick preferring the
double-precision field when `JackTickDouble` is flagged. -/
def copiedBBT (pos : jack_position_t) : TimeBBT :=
  { valid := true
    bar := pos.bar
    beat := pos.beat
    tick := if pos.valid &&& JackTickDouble ≠ 0 then pos.tick_double else (pos.tick : ℚ)
    barStartTick := pos.bar_start_tick
    beatsPerBar := pos.beats_per_bar
    beatType := pos.beat_type
    ticksPerBeat := pos.ticks_per_beat
    beatsPerMinute := pos.beats_per_minute }

/-- The transport/time-position translation performed at the top of
`jackProcess` (lines 345-383): `playing` is set from whether the transport is
rolling; if the two atomicity markers agree the frame is copied and the BBT
block is copied when flagged present, otherwise the position is invalidated
(`frame = 0`, `bbt.valid = false`).  `prev` is the persistent `fTimePosition`
member, whose unassigned fields survive. -/
def translateTimePosition (prev : TimePosition) (rolling : Bool) (pos : jack_position_t) :
    TimePosition :=
  let t0 : TimePosition := { prev with playing := rolling }
  if pos.unique_1 = pos.unique_2 then
    if pos.valid &&& JackPositionBBT ≠ 0 then
      { t0 with frame := pos.frame, bbt := copiedBBT pos }
    else
      { t0 with frame := pos.frame, bbt := { t0.bbt with valid := false } }
  else
    { t0 with frame := 0, bbt := { t0.bbt with valid := false } }

/-- The loop body of `updateParameterTriggers` for one parameter (lines
535-544): a parameter whose hints contain the whole trigger mask and whose
value differs (approximately) from the declared default is written back to the
default via `setParameterValue`. -/
def triggerStep (p : Parameter) : Parameter :=
  if p.hints &&& kParameterIsTrigger = kParameterIsTrigger then
    if d_isNotEqual p.ranges.defValue p.value then { p with value := p.ranges.defValue }
    else p
  else p

/-- Source `PluginJack::updateParameterTriggers` (lines 531-545), applied once
per cycle before the DSP core runs. -/
def updateParameterTriggers (slots : List ParamSlot) : List ParamSlot :=
  slots.map fun s => { s with param := triggerStep s.param }

/-- The CC-to-parameter scan of `jackProcess` (lines 436-450): walk the
parameters in index order, skip outputs and non-matching CC mappings, and on
the first match write the scaled value via `setParameterValue`, set the dirty
flag, and stop (`break`). -/
def applyCC : List ParamSlot → Nat → Nat → List ParamSlot
  | [], _, _ => []
  | s :: ss, control, value =>
    if s.param.isOutput then s :: applyCC ss control value
    else if s.param.midiCC ≠ control then s :: applyCC ss control value
    else
      { s with
        param := { s.param with
                   value := getUnnormalizedValue s.param.ranges ((value : ℚ) / 127) }
        changed := true } :: ss

/-- The DSP core's `loadProgram` applied through the slot list: the parameter
vector is replaced by `load`, the bridge-side flags are untouched. -/
def applyLoadProgram (load : LoadFn) (idx : Nat) (slots : List ParamSlot) : List ParamSlot :=
  List.zipWith (fun s p => { s with param := p }) slots (load idx (slots.map fun s => s.param))

/-- The per-host-event interpretation step of `jackProcess` (lines 428-466):
a channel-1 control change of size 3 drives the CC scan; a channel-1 program
change of size 2 with an in-range program loads it and records the pending
notification; every other event has no side effect. -/
def hostEventStep (load : LoadFn) (st : BridgeState) (ev : JackMidiEvent) : BridgeState :=
  if ev.buffer.headD 0 = 0xB0 ∧ ev.size = 3 then
    { st with slots := applyCC st.slots (ev.buffer.getD 1 0) (ev.buffer.getD 2 0) }
  else if ev.buffer.headD 0 = 0xC0 ∧ ev.size = 2 then
    let program := ev.buffer.getD 1 0
    if program < st.programCount then
      { st with
        slots := applyLoadProgram load program st.slots
        dspProgramLoads := st.dspProgramLoads ++ [program]
        programChanged := Int.ofNat program }
    else st
  else st

/-- The conversion of a fetched host event into a DPF `MidiEvent` (lines
469-477): frame and size are copied; payloads larger than the inline capacity
keep an external reference, smaller ones are copied inline. -/
def toMidiEvent (ev : JackMidiEvent) : MidiEvent :=
  if ev.size > kDataSize then
    { frame := ev.time, size := ev.size, data := [], dataExt := some ev.buffer }
  else
    { frame := ev.time, size := ev.size, data := ev.buffer.take ev.size, dataExt := none }

/-- The host-event scan of `jackProcess` (lines 421-479): each fetch result is
either an event (interpreted, then unconditionally appended to the merged
list) or a non-zero error code (`none`), which aborts the scan for the rest of
the cycle. -/
def hostEventLoop (load : LoadFn) (st : BridgeState) :
    List (Option JackMidiEvent) → BridgeState × List MidiEvent
  | [] => (st, [])
  | none :: _ => (st, [])
  | some ev :: rest =>
    let st1 := hostEventStep load st ev
    let r := hostEventLoop load st1 rest
    (r.1, toMidiEvent ev :: r.2)

/-- The fixed 3-byte note message built by `PluginJack::sendNote` (lines
511-519) and pushed into the notes ring buffer: status `0x90|channel` for a
non-zero velocity, `0x80|channel` otherwise. -/
def sendNoteData (channel note velocity : Nat) : List Nat :=
  [(if velocity ≠ 0 then 0x90 else 0x80) ||| channel, note, velocity]

/-- A UI-originated note message turned into a `MidiEvent` by the drain loop
of `jackProcess` (lines 398-411): frame offset 0, size 3, the three bytes
copied inline. -/
def mkUiEvent (m : List Nat) : MidiEvent :=
  { frame := 0, size := 3, data := m.take 3, dataExt := none }

/-- The UI-note drain loop of `jackProcess` (lines 398-411): whole 3-byte
records are read from the notes channel while data is available, each becoming
a frame-0 event; the loop stops once the event count reaches 512, leaving
unread records in the channel.  The channel is modelled (per spec §4.1) as the
in-order queue of committed records; `count` is the running
`midiEventCount`. -/
def drainNotes : Nat → List (List Nat) → List MidiEvent × List (List Nat)
  | _, [] => ([], [])
  | count, m :: ms =>
    if count + 1 = 512 then ([mkUiEvent m], ms)
    else
      let r := drainNotes (count + 1) ms
      (mkUiEvent m :: r.1, r.2)

/-- Source `PluginJack::jackProcess` (lines 325-491), restricted to the control
path: translate the transport snapshot, run the trigger reset, drain the
UI-note channel (frame-0 events first), scan at most `512 - collected` host
fetch results, and hand the merged list to the DSP core's `run`.  The result
is (state after side effects, translated time position, merged MIDI list
passed to `run`, records left unread in the notes channel).  Audio buffers are
opaque pass-throughs and are omitted. -/
def jackProcess (load : LoadFn) (st : BridgeState) (prevTime : TimePosition) (rolling : Bool)
    (pos : jack_position_t) (notes : List (List Nat)) (hostFetches : List (Option JackMidiEvent)) :
    BridgeState × TimePosition × List MidiEvent × List (List Nat) :=
  let newTime := translateTimePosition prevTime rolling pos
  let st0 : BridgeState := { st with slots := updateParameterTriggers st.slots }
  let ui := drainNotes 0 notes
  let eventCount := min (512 - ui.1.length) hostFetches.length
  let host := hostEventLoop load st0 (hostFetches.take eventCount)
  (host.1, newTime, ui.1 ++ host.2, ui.2)

/-- One step of the idle-loop parameter poll (`idleCallback` lines 292-309):
an output parameter is emitted when its current value differs (approximately)
from the cached one, updating the cache; an input parameter is emitted when
its dirty flag is set, clearing the flag. -/
def pollAux : Nat → List ParamSlot → List (Nat × ℚ) × List ParamSlot
  | _, [] => ([], [])
  | i, s :: ss =>
    let r := pollAux (i + 1) ss
    if s.param.isOutput then
      if d_isEqual s.lastOutput s.param.value then (r.1, s :: r.2)
      else ((i, s.param.value) :: r.1, { s with lastOutput := s.param.value } :: r.2)
    else if s.changed then ((i, s.param.value) :: r.1, { s with changed := false } :: r.2)
    else (r.1, s :: r.2)

/-- The parameter poll of `PluginJack::idleCallback` (lines 292-309), called
`pollOutputs` by the spec: the emitted `(index, value)` notifications in
delivery order, and the updated slots. -/
def pollOutputs (slots : List ParamSlot) : List (Nat × ℚ) × List ParamSlot :=
  pollAux 0 slots

/-- The per-slot state transformation performed by one poll. -/
def pollSlotStep (s : ParamSlot) : ParamSlot :=
  if s.param.isOutput then
    if d_isEqual s.lastOutput s.param.value then s
    else { s with lastOutput := s.param.value }
  else if s.changed then { s with changed := false }
  else s

/-- The notification one poll emits for a single slot, if any. -/
def pollEmit (s : ParamSlot) : Option ℚ :=
  if s.param.isOutput then
    if d_isEqual s.lastOutput s.param.value then none
    else some s.param.value
  else if s.changed then some s.param.value
  else none

/-- Source `PluginJack::requestParameterValueChange` (lines 713-722): an
out-of-range index is rejected by `DISTRHO_SAFE_ASSERT_RETURN` (diagnostic
print, `return false`, no state change); in range, the value is written via
`setParameterValue`, the dirty flag set, and `true` returned. -/
def setSlotFromRequest : List ParamSlot → Nat → ℚ → List ParamSlot
  | [], _, _ => []
  | s :: ss, 0, v => { s with param := { s.param with value := v }, changed := true } :: ss
  | s :: ss, n + 1, v => s :: setSlotFromRequest ss n v

/-- Source `PluginJack::requestParameterValueChange` (lines 713-722). -/
def requestParameterValueChange (st : BridgeState) (index : Nat) (value : ℚ) :
    Bool × BridgeState :=
  if index < st.slots.length then
    (true, { st with slots := setSlotFromRequest st.slots index value })
  else (false, st)

/-- The parameter-notification loop of the constructor (lines 184-190): every
non-output parameter's current value is pushed to the UI, in index order. -/
def constructorParamNotifications (i : Nat) : List Parameter → List UICall
  | [] => []
  | p :: ps =>
    if p.isOutput then constructorParamNotifications (i + 1) ps
    else UICall.parameterChanged i p.value :: constructorParamNotifications (i + 1) ps

/-- Source `PluginJack::PluginJack` (lines 161-198), the initialisation
relevant to the claims: when programs exist, program 0 is loaded into the DSP
core and `programLoaded(0)` delivered; the pending program notification is
cleared; the dirty flags start cleared and the output-value cache zeroed; and
every non-output parameter's current value is delivered once via
`parameterChanged`.  Returns the initial bridge state and the UI calls made,
in order. -/
def constructorInit (load : LoadFn) (params0 : List Parameter) (programCount : Nat) :
    BridgeState × List UICall :=
  let params1 := if 0 < programCount then load 0 params0 else params0
  let uiProgram : List UICall := if 0 < programCount then [UICall.programLoaded 0] else []
  let loads : List Nat := if 0 < programCount then [0] else []
  ({ slots := params1.map fun p => { param := p, changed := false, lastOutput := 0 }
     programCount := programCount
     programChanged := -1
     dspProgramLoads := loads },
   uiProgram ++ constructorParamNotifications 0 params1)

/-- The predicate driving the CC scan: a parameter takes a CC message when it
is not an output and its CC mapping equals the CC number (lines 438-441). -/
def ccMatches (control : Nat) (s : ParamSlot) : Bool :=
  !s.param.isOutput && s.param.midiCC == control

/-- An identity `loadProgram` behaviour, used by concrete witnesses. -/
def loadId : LoadFn := fun _ ps => ps

/-- A concrete persistent time position used to witness C3. -/
def c3Prev : TimePosition :=
  { playing := false, frame := 77
    bbt := { valid := true, bar := 1, beat := 2, tick := 3, barStartTick := 4,
             beatsPerBar := 5, beatType := 6, ticksPerBeat := 7, beatsPerMinute := 8 } }

/-- A concrete snapshot with mismatched atomicity markers and non-zero raw
bar/beat/tick data, used to witness C3. -/
def c3Pos : jack_position_t :=
  { unique_1 := 1, unique_2 := 2, frame := 999, valid := 0x10, bar := 9, beat := 8,
    tick := 7, tick_double := 6, bar_start_tick := 5, beats_per_bar := 4, beat_type := 3,
    ticks_per_beat := 2, beats_per_minute := 1 }

/-- An all-zero time position, used as the persistent position of concrete
cycle runs. -/
def timeZero : TimePosition :=
  { playing := false, frame := 0
    bbt := { valid := false, bar := 0, beat := 0, tick := 0, barStartTick := 0,
             beatsPerBar := 0, beatType := 0, ticksPerBeat := 0, beatsPerMinute := 0 } }

/-- An all-zero transport snapshot, used by concrete cycle runs. -/
def posZero : jack_position_t :=
  { unique_1 := 0, unique_2 := 0, frame := 0, valid := 0, bar := 0, beat := 0,
    tick := 0, tick_double := 0, bar_start_tick := 0, beats_per_bar := 0, beat_type := 0,
    ticks_per_beat := 0, beats_per_minute := 0 }

/-- A concrete trigger parameter sitting away from its default, used to
witness C5. -/
def c5Slot : ParamSlot :=
  { param := { value := 5, isOutput := false, hints := 0x22, midiCC := 0,
               ranges := { defValue := 0, minValue := 0, maxValue := 10 } }
    changed := false, lastOutput := 0 }

/-- A one-parameter bridge state used to witness C9. -/
def c9St : BridgeState :=
  { slots := [{ param := { value := 1, isOutput := false, hints := 0, midiCC := 0,
                           ranges := { defValue := 0, minValue := 0, maxValue := 10 } }
                changed := false, lastOutput := 0 }]
    programCount := 0, programChanged := -1, dspProgramLoads := [] }

/-- A bridge state with one input parameter mapped to CC 7 with range
`[0, 10]`, used by the C1 counterexample. -/
def c1St : BridgeState :=
  { slots := [{ param := { value := 0, isOutput := false, hints := 0, midiCC := 7,
                           ranges := { defValue := 0, minValue := 0, maxValue := 10 } }
                changed := false, lastOutput := 0 }]
    programCount := 0, programChanged := -1, dspProgramLoads := [] }

/-- A channel-1 control-change message, CC number 7, value 64, matching the
parameter of `c1St`. -/
def c1Event : JackMidiEvent :=
  { time := 0, size := 3, buffer := [0xB0, 7, 64] }

/-- Slot list used to witness C2: an output parameter mapped to CC 7 followed
by an input parameter mapped to CC 7 with range `[0, 10]`. -/
def c2Slots : List ParamSlot :=
  [{ param := { value := 3, isOutput := true, hints := 0, midiCC := 7,
                ranges := { defValue := 0, minValue := 0, maxValue := 10 } }
     changed := false, lastOutput := 0 },
   { param := { value := 0, isOutput := false, hints := 0, midiCC := 7,
                ranges := { defValue := 0, minValue := 0, maxValue := 10 } }
     changed := false, lastOutput := 0 }]

/-- A bridge state with no parameters, used by concrete cycle runs that only
exercise the event path. -/
def emptyBridge : BridgeState :=
  { slots := [], programCount := 0, programChanged := -1, dspProgramLoads := [] }

/-- The 3-byte note-on message used by the C4 counterexample and the C7
witness. -/
def c4Note : List Nat := sendNoteData 0 60 100

/-- Slot list used to witness C6: a dirty input parameter followed by an
output parameter whose value moved away from the cached one. -/
def c6Slots : List ParamSlot :=
  [{ param := { value := 5, isOutput := false, hints := 0, midiCC := 0,
                ranges := { defValue := 0, minValue := 0, maxValue := 10 } }
     changed := true, lastOutput := 0 },
   { param := { value := 9, isOutput := true, hints := 0, midiCC := 0,
                ranges := { defValue := 0, minValue := 0, maxValue := 10 } }
     changed := false, lastOutput := 0 }]

/-- Parameter list used to witness C10: one input parameter and one output
parameter. -/
def c10Params : List Parameter :=
  [{ value := 3, isOutput := false, hints := 0, midiCC := 0,
     ranges := { defValue := 0, minValue := 0, maxValue := 10 } },
   { value := 4, isOutput := true, hints := 0, midiCC := 0,
     ranges := { defValue := 0, minValue := 0, maxValue := 10 } }]

/-- A queue of 513 UI note messages, one more than the per-cycle cap, used by
the C4 counterexample. -/
def c4Notes : List (List Nat) := List.replicate 513 c4Note

/-- Whether a UI call is a `parameterChanged` notification for index `i`. -/
def isParamChangedFor (i : Nat) : UICall → Bool
  | UICall.parameterChanged j _ => j == i
  | UICall.programLoaded _ => false

/-- C3: for every host transport snapshot, mismatched atomicity markers yield
`frame = 0` and `bbt.valid = false` regardless of the raw bar/beat/tick
fields; matching markers copy the frame and copy the bar-beat-tick block
exactly when the host flags it present; and `playing` equals whether the
transport is rolling, independent of snapshot validity. -/
theorem c3_transport_translation (prev : TimePosition) (rolling : Bool)
    (pos : jack_position_t) :
    (translateTimePosition prev rolling pos).playing = rolling ∧
    (pos.unique_1 ≠ pos.unique_2 →
      (translateTimePosition prev rolling pos).frame = 0 ∧
      (translateTimePosition prev rolling pos).bbt.valid = false) ∧
    (pos.unique_1 = pos.unique_2 →
      (translateTimePosition prev rolling pos).frame = pos.frame ∧
      (pos.valid &&& JackPositionBBT ≠ 0 →
        (translateTimePosition prev rolling pos).bbt = copiedBBT pos) ∧
      (pos.valid &&& JackPositionBBT = 0 →
        (translateTimePosition prev rolling pos).bbt.valid = false)) := by
  unfold translateTimePosition
  by_cases h1 : pos.unique_1 = pos.unique_2
  · by_cases h2 : pos.valid &&& JackPositionBBT ≠ 0
    · simp [h1, h2]
    · simp [h1, h2]
  · simp [h1]

/-- Witness for C3: a snapshot whose markers differ yields frame 0 and an
invalid BBT block even though the raw fields are populated and the BBT flag is
set, while `playing` still reflects the rolling transport. -/
theorem c3_transport_translation_witness :
    (translateTimePosition c3Prev true c3Pos).playing = true ∧
    (translateTimePosition c3Prev true c3Pos).frame = 0 ∧
    (translateTimePosition c3Prev true c3Pos).bbt.valid = false :=
  ⟨(c3_transport_translation c3Prev true c3Pos).1,
   ((c3_transport_translation c3Prev true c3Pos).2.1 (by decide)).1,
   ((c3_transport_translation c3Prev true c3Pos).2.1 (by decide)).2⟩

/-- C5: the once-per-cycle trigger reset (`updateParameterTriggers`, invoked
at line 386 before the DSP core's `run`) forces every parameter carrying the
trigger hint whose value is not approximately equal to its declared default
back to that default, leaves trigger parameters already at their default
untouched, and never writes non-trigger parameters. -/
theorem c5_trigger_reset (slots : List ParamSlot) (k : Nat) (s : ParamSlot)
    (hs : slots.get? k = some s) :
    ((s.param.hints &&& kParameterIsTrigger = kParameterIsTrigger ∧
        d_isNotEqual s.param.ranges.defValue s.param.value = true) →
      (updateParameterTriggers slots).get? k =
        some { s with param := { s.param with value := s.param.ranges.defValue } }) ∧
    ((s.param.hints &&& kParameterIsTrigger = kParameterIsTrigger ∧
        d_isNotEqual s.param.ranges.defValue s.param.value = false) →
      (updateParameterTriggers slots).get? k = some s) ∧
    (s.param.hints &&& kParameterIsTrigger ≠ kParameterIsTrigger →
      (updateParameterTriggers slots).get? k = some s) := by
  unfold updateParameterTriggers
  rw [List.get?_map, hs]
  refine ⟨?_, ?_, ?_⟩
  · rintro ⟨h1, h2⟩
    simp [triggerStep, h1, h2]
  · rintro ⟨h1, h2⟩
    simp [triggerStep, h1, h2]
  · intro h1
    simp [triggerStep, h1]

/-- Witness for C5: the trigger parameter at value 5 with default 0 is forced
back to 0 by the pre-`run` trigger reset. -/
theorem c5_trigger_reset_witness :
    (updateParameterTriggers [c5Slot]).get? 0 =
      some { param := { value := 0, isOutput := false, hints := 0x22, midiCC := 0,
                        ranges := { defValue := 0, minValue := 0, maxValue := 10 } }
             changed := false, lastOutput := 0 } :=
  (c5_trigger_reset [c5Slot] 0 c5Slot (by decide)).1 ⟨by decide, by decide⟩

/-- Updating slot `index` through the request path leaves every other index
unchanged. -/
theorem setSlotFromRequest_get?_other (slots : List ParamSlot) (index : Nat) (v : ℚ)
    (k : Nat) (hk : k ≠ index) :
    (setSlotFromRequest slots index v).get? k = slots.get? k := by
  induction slots generalizing index k with
  | nil => simp [setSlotFromRequest]
  | cons s ss ih =>
    cases index with
    | zero =>
      cases k with
      | zero => exact absurd rfl hk
      | succ k' => simp [setSlotFromRequest]
    | succ n =>
      cases k with
      | zero => simp [setSlotFromRequest]
      | succ k' =>
        simp only [setSlotFromRequest, List.get?]
        exact ih n k' (fun h => hk (by simp [h]))

/-- Updating slot `index` through the request path writes the value and sets
the dirty flag at that index. -/
theorem setSlotFromRequest_get?_self (slots : List ParamSlot) (index : Nat) (v : ℚ)
    (s : ParamSlot) (hs : slots.get? index = some s) :
    (setSlotFromRequest slots index v).get? index =
      some { s with param := { s.param with value := v }, changed := true } := by
  induction slots generalizing index with
  | nil => simp at hs
  | cons hd tl ih =>
    cases index with
    | zero =>
      simp only [List.get?] at hs
      cases hs
      simp [setSlotFromRequest]
    | succ n =>
      simp only [List.get?] at hs
      simpa [setSlotFromRequest] using ih n hs

/-- C9: a parameter-value-change request with an out-of-range index is a local
no-op returning `false` with no value written and no dirty flag set; an
in-range request writes the value, sets the dirty flag for that index only,
and returns `true`. -/
theorem c9_request_param_change (st : BridgeState) (index : Nat) (value : ℚ) :
    (st.slots.length ≤ index → requestParameterValueChange st index value = (false, st)) ∧
    (∀ s, st.slots.get? index = some s →
      (requestParameterValueChange st index value).1 = true ∧
      (requestParameterValueChange st index value).2.slots.get? index =
        some { s with param := { s.param with value := value }, changed := true } ∧
      ∀ k, k ≠ index →
        (requestParameterValueChange st index value).2.slots.get? k = st.slots.get? k) := by
  constructor
  · intro h
    have : ¬ index < st.slots.length := not_lt.mpr h
    simp [requestParameterValueChange, this]
  · intro s hs
    have hlt : index < st.slots.length := by
      rcases List.get?_eq_some.mp hs with ⟨h, _⟩
      exact h
    refine ⟨by simp [requestParameterValueChange, hlt], ?_, ?_⟩
    · simp only [requestParameterValueChange, if_pos hlt]
      exact setSlotFromRequest_get?_self st.slots index value s hs
    · intro k hk
      simp only [requestParameterValueChange, if_pos hlt]
      exact setSlotFromRequest_get?_other st.slots index value k hk

/-- Witness for C9: index 5 on a one-parameter state is rejected without any
state change, while index 0 writes the value, sets the dirty flag and returns
`true`. -/
theorem c9_request_param_change_witness :
    requestParameterValueChange c9St 5 7 = (false, c9St) ∧
    (requestParameterValueChange c9St 0 7).1 = true ∧
    (requestParameterValueChange c9St 0 7).2.slots.get? 0 =
      some { param := { value := 7, isOutput := false, hints := 0, midiCC := 0,
                        ranges := { defValue := 0, minValue := 0, maxValue := 10 } }
             changed := true, lastOutput := 0 } :=
  ⟨(c9_request_param_change c9St 5 7).1 (by decide),
   ((c9_request_param_change c9St 0 7).2
      { param := { value := 1, isOutput := false, hints := 0, midiCC := 0,
                   ranges := { defValue := 0, minValue := 0, maxValue := 10 } }
        changed := false, lastOutput := 0 } (by decide)).1,
   ((c9_request_param_change c9St 0 7).2
      { param := { value := 1, isOutput := false, hints := 0, midiCC := 0,
                   ranges := { defValue := 0, minValue := 0, maxValue := 10 } }
        changed := false, lastOutput := 0 } (by decide)).2.1⟩

/-- The CC scan leaves every slot other than the first match untouched (in
particular output parameters and every parameter after the first match). -/
theorem applyCC_get?_other (slots : List ParamSlot) (control value k : Nat)
    (hk : k ≠ slots.findIdx (ccMatches control)) :
    (applyCC slots control value).get? k = slots.get? k := by
  induction slots generalizing k with
  | nil => rfl
  | cons hd tl ih =>
    by_cases hm : ccMatches control hd = true
    · have hout : hd.param.isOutput = false := by
        simp [ccMatches, Bool.and_eq_true] at hm
        exact hm.1
      have hmc : hd.param.midiCC = control := by
        simp [ccMatches, Bool.and_eq_true] at hm
        exact hm.2
      rw [List.findIdx_cons, hm] at hk
      simp only [cond_true] at hk
      cases k with
      | zero => exact absurd rfl hk
      | succ k' => simp [applyCC, hout, hmc]
    · rw [List.findIdx_cons, Bool.eq_false_iff.mpr hm] at hk
      simp only [cond_false] at hk
      have happ : applyCC (hd :: tl) control value = hd :: applyCC tl control value := by
        by_cases hout : hd.param.isOutput
        · simp [applyCC, hout]
        · have hmc : hd.param.midiCC ≠ control := by
            simp [ccMatches, Bool.and_eq_true, hout] at hm
            exact fun h => hm (by simp [h])
          simp [applyCC, hout, hmc]
      rw [happ]
      cases k with
      | zero => rfl
      | succ k' =>
        simp only [List.get?]
        exact ih k' (fun h => hk (by simp [h]))

/-- The CC scan writes the scaled value into the first matching slot and sets
its dirty flag. -/
theorem applyCC_get?_match (slots : List ParamSlot) (control value j : Nat) (s : ParamSlot)
    (hs : slots.get? j = some s) (hj : slots.findIdx (ccMatches control) = j) :
    (applyCC slots control value).get? j =
      some { s with
             param := { s.param with
                        value := getUnnormalizedValue s.param.ranges ((value : ℚ) / 127) }
             changed := true } := by
  induction slots generalizing j with
  | nil => simp at hs
  | cons hd tl ih =>
    by_cases hm : ccMatches control hd = true
    · have hout : hd.param.isOutput = false := by
        simp [ccMatches, Bool.and_eq_true] at hm
        exact hm.1
      have hmc : hd.param.midiCC = control := by
        simp [ccMatches, Bool.and_eq_true] at hm
        exact hm.2
      rw [List.findIdx_cons, hm] at hj
      simp only [cond_true] at hj
      subst hj
      simp only [List.get?] at hs
      cases hs
      simp [applyCC, hout, hmc]
    · rw [List.findIdx_cons, Bool.eq_false_iff.mpr hm] at hj
      simp only [cond_false] at hj
      have happ : applyCC (hd :: tl) control value = hd :: applyCC tl control value := by
        by_cases hout : hd.param.isOutput
        · simp [applyCC, hout]
        · have hmc : hd.param.midiCC ≠ control := by
            simp [ccMatches, Bool.and_eq_true, hout] at hm
            exact fun h => hm (by simp [h])
          simp [applyCC, hout, hmc]
      cases j with
      | zero => simp at hj
      | succ j' =>
        rw [happ]
        simp only [List.get?] at hs ⊢
        exact ih j' hs (by omega)

/-- C2: a channel-1 CC message with number `c` and value `v` writes the first
non-output parameter whose CC mapping equals `c` (if any) to
`min + (v/127)·(max − min)` of its declared range and sets that parameter's
dirty flag; every other slot — output parameters, parameters after the first
match, and everything when no parameter matches — is left untouched. -/
theorem c2_cc_first_match_scaled (slots : List ParamSlot) (control value : Nat) :
    (∀ k : Nat, k ≠ slots.findIdx (ccMatches control) →
      (applyCC slots control value).get? k = slots.get? k) ∧
    (∀ j s, slots.get? j = some s → slots.findIdx (ccMatches control) = j →
      (applyCC slots control value).get? j =
        some { s with
               param := { s.param with
                          value := getUnnormalizedValue s.param.ranges ((value : ℚ) / 127) }
               changed := true }) :=
  ⟨fun k hk => applyCC_get?_other slots control value k hk,
   fun j s hs hj => applyCC_get?_match slots control value j s hs hj⟩

/-- Witness for C2: on `c2Slots` (an output parameter mapped to CC 7 followed
by an input parameter mapped to CC 7 with range `[0, 10]`), the CC-7 value-64
message writes `10 · (64/127)` into the input parameter and marks it dirty,
leaving the output parameter untouched. -/
theorem c2_cc_first_match_scaled_witness :
    (applyCC c2Slots 7 64).get? 1 =
      some { param := { value := 10 * ((64 : ℚ) / 127), isOutput := false, hints := 0,
                        midiCC := 7,
                        ranges := { defValue := 0, minValue := 0, maxValue := 10 } }
             changed := true, lastOutput := 0 } ∧
    (applyCC c2Slots 7 64).get? 0 = c2Slots.get? 0 := by
  have h := c2_cc_first_match_scaled c2Slots 7 64
  refine ⟨?_, h.1 0 (by decide)⟩
  have h2 := h.2 1
    { param := { value := 0, isOutput := false, hints := 0, midiCC := 7,
                 ranges := { defValue := 0, minValue := 0, maxValue := 10 } }
      changed := false, lastOutput := 0 } (by decide) (by decide)
  rw [h2]
  norm_num [getUnnormalizedValue]

/-- A host-event scan over error-free fetches appends the conversion of every
scanned event to the merged list, independent of any interpretation side
effect. -/
theorem hostEventLoop_map_some (load : LoadFn) (st : BridgeState) (evs : List JackMidiEvent) :
    (hostEventLoop load st (evs.map some)).2 = evs.map toMidiEvent := by
  induction evs generalizing st with
  | nil => rfl
  | cons e es ih => simp [hostEventLoop, ih]

/-- C1 (amended): every host MIDI event fetched without error within the
per-cycle cap — control-change and program-change messages included — is
appended to the merged MIDI event list passed to the DSP core's `run`; the
interception at lines 428-466 applies side effects but consumes nothing. -/
theorem c1_host_events_appended (load : LoadFn) (st : BridgeState) (prevTime : TimePosition)
    (rolling : Bool) (pos : jack_position_t) (notes : List (List Nat))
    (evs : List JackMidiEvent) :
    (jackProcess load st prevTime rolling pos notes (evs.map some)).2.2.1 =
      (drainNotes 0 notes).1 ++
        (evs.take (512 - (drainNotes 0 notes).1.length)).map toMidiEvent := by
  unfold jackProcess
  simp only [List.length_map]
  rw [← List.map_take, hostEventLoop_map_some]
  congr 2
  rw [← List.take_take, List.take_length]

/-- Counterexample for C1: a channel-1 control-change message matching the CC
mapping of `c1St`'s (non-output) parameter still appears in the merged MIDI
event list passed to `run` — it is interpreted but not consumed. -/
theorem c1_cc_forwarded_counterexample :
    ((c1St.slots.get? 0).map fun s => (s.param.isOutput, s.param.midiCC)) =
      some (false, 7) ∧
    (jackProcess loadId c1St timeZero false posZero [] [some c1Event]).2.2.1 =
      [{ frame := 0, size := 3, data := [0xB0, 7, 64], dataExt := none }] := by
  constructor
  · decide
  · decide

/-- The UI-note drain reads whole messages in order up to the 512-event cap
and leaves the rest queued. -/
theorem drainNotes_eq (notes : List (List Nat)) (c : Nat) (hc : c < 512) :
    drainNotes c notes =
      ((notes.take (min notes.length (512 - c))).map mkUiEvent,
       notes.drop (min notes.length (512 - c))) := by
  induction notes generalizing c with
  | nil => simp [drainNotes]
  | cons m ms ih =>
    by_cases h : c + 1 = 512
    · have h1 : 512 - c = 1 := by omega
      simp [drainNotes, h, h1]
    · have hc1 : c + 1 < 512 := by omega
      have h2 : min (ms.length + 1) (512 - c) = min ms.length (512 - (c + 1)) + 1 := by
        omega
      simp only [drainNotes, if_neg h, ih (c + 1) hc1, List.length_cons, h2,
        List.take_succ_cons, List.map_cons, List.drop_succ_cons]

/-- Events produced by the host scan never outnumber the scanned fetches. -/
theorem hostEventLoop_length_le (load : LoadFn) (st : BridgeState)
    (l : List (Option JackMidiEvent)) :
    (hostEventLoop load st l).2.length ≤ l.length := by
  induction l generalizing st with
  | nil => simp [hostEventLoop]
  | cons o rest ih =>
    cases o with
    | none => simp [hostEventLoop]
    | some e =>
      simp only [hostEventLoop, List.length_cons]
      exact Nat.succ_le_succ (ih _)

/-- C4 (amended): for every cycle and any number of queued UI notes and host
fetches, the merged MIDI list handed to `run` holds at most 512 events (so
every write into the 512-slot array is in bounds); host events beyond the cap
are dropped, while UI-queued notes beyond the cap are **not** dropped — they
remain in the notes channel (exactly those past the first
`min(notes, 512)` drained) and surface in later cycles. -/
theorem c4_event_cap (load : LoadFn) (st : BridgeState) (prevTime : TimePosition)
    (rolling : Bool) (pos : jack_position_t) (notes : List (List Nat))
    (fetches : List (Option JackMidiEvent)) :
    (jackProcess load st prevTime rolling pos notes fetches).2.2.1.length ≤ 512 ∧
    (jackProcess load st prevTime rolling pos notes fetches).2.2.2 =
      notes.drop (min notes.length 512) := by
  have hd := drainNotes_eq notes 0 (by norm_num)
  constructor
  · show ((drainNotes 0 notes).1 ++ _).length ≤ 512
    rw [List.length_append]
    have h1 : (drainNotes 0 notes).1.length = min notes.length 512 := by
      rw [hd]
      simp [List.length_take]
    have h2 := hostEventLoop_length_le load
      { st with slots := updateParameterTriggers st.slots }
      (fetches.take (min (512 - (drainNotes 0 notes).1.length) fetches.length))
    rw [List.length_take] at h2
    omega
  · show (drainNotes 0 notes).2 = _
    rw [hd]

/-- Counterexample for C4: with 513 UI-queued note messages, the cycle merges
exactly 512 events, the 513th message is left in the notes channel rather than
dropped, and the next cycle delivers it to `run` — excess UI events are
carried over, not dropped. -/
theorem c4_excess_carried_counterexample :
    (jackProcess loadId emptyBridge timeZero false posZero c4Notes []).2.2.1.length = 512 ∧
    (jackProcess loadId emptyBridge timeZero false posZero c4Notes []).2.2.2 = [c4Note] ∧
    (jackProcess loadId emptyBridge timeZero false posZero
        (jackProcess loadId emptyBridge timeZero false posZero c4Notes []).2.2.2 []).2.2.1 =
      [{ frame := 0, size := 3, data := [0x90, 60, 100], dataExt := none }] := by
  refine ⟨by decide, by decide, by decide⟩

/-- A failed fetch (`none`) aborts the host-event scan: everything at and
after the failure is neither interpreted nor appended. -/
theorem hostEventLoop_append_none (load : LoadFn) (st : BridgeState)
    (pre post : List (Option JackMidiEvent)) :
    hostEventLoop load st (pre ++ none :: post) = hostEventLoop load st pre := by
  induction pre generalizing st with
  | nil => rfl
  | cons o rest ih =>
    cases o with
    | none => rfl
    | some e => simp [hostEventLoop, ih]

/-- C8: if fetching the i-th host MIDI event fails (non-zero error code), the
scan stops for the remainder of the cycle — events at and after the failure
are neither interpreted nor appended — while the process callback completes
normally: the whole cycle result, including the merged list handed to `run`,
is exactly that of the same cycle whose host buffer ends before the failed
fetch. -/
theorem c8_fetch_error_stops_scan (load : LoadFn) (st : BridgeState)
    (prevTime : TimePosition) (rolling : Bool) (pos : jack_position_t)
    (notes : List (List Nat)) (pre post : List (Option JackMidiEvent)) :
    jackProcess load st prevTime rolling pos notes (pre ++ none :: post) =
      jackProcess load st prevTime rolling pos notes pre := by
  have key : ∀ stX : BridgeState,
      hostEventLoop load stX
        ((pre ++ none :: post).take
          (min (512 - (drainNotes 0 notes).1.length) (pre ++ none :: post).length)) =
      hostEventLoop load stX
        (pre.take (min (512 - (drainNotes 0 notes).1.length) pre.length)) := by
    intro stX
    set cap := 512 - (drainNotes 0 notes).1.length with hcap
    rcases le_or_lt cap pre.length with h | h
    · have h1 : min cap (pre ++ none :: post).length = cap := by
        simp [List.length_append]
        omega
      have h2 : min cap pre.length = cap := by omega
      rw [h1, h2, List.take_append_of_le_length h]
    · have h2 : min cap pre.length = pre.length := by omega
      rw [h2, List.take_length]
      have h3 : pre.length < min cap (pre ++ none :: post).length := by
        simp [List.length_append]
        omega
      rw [List.take_append_eq_append_take, List.take_of_length_le (le_of_lt h3)]
      rcases Nat.exists_eq_add_of_lt h3 with ⟨k, hk⟩
      have h4 : min cap (pre ++ none :: post).length - pre.length = k + 1 := by omega
      rw [h4, List.take_succ_cons]
      exact hostEventLoop_append_none load stX pre (post.take k)
  simp only [jackProcess]
  rw [key]

/-- Lists of frame-0 events are trivially in non-decreasing frame order. -/
theorem pairwise_frame_le_of_zero (l : List MidiEvent) (h : ∀ e ∈ l, e.frame = 0) :
    List.Pairwise (fun a b : MidiEvent => a.frame ≤ b.frame) l := by
  induction l with
  | nil => simp
  | cons e es ih =>
    refine List.Pairwise.cons ?_ (ih fun x hx => h x (List.mem_cons_of_mem _ hx))
    intro b hb
    rw [h e (List.mem_cons_self _ _), h b (List.mem_cons_of_mem _ hb)]

/-- C7: when every queued message was produced by `sendNote`, the merged MIDI
list is the drained UI-note prefix followed by the host part; every
UI-originated event has frame offset 0, size 3, and a `sendNote`-shaped
payload whose status byte is `0x90|channel` for non-zero velocity and
`0x80|channel` for zero velocity; the UI-originated prefix is therefore in
non-decreasing frame order without resorting. -/
theorem c7_ui_events_first (load : LoadFn) (st : BridgeState) (prevTime : TimePosition)
    (rolling : Bool) (pos : jack_position_t) (notes : List (List Nat))
    (fetches : List (Option JackMidiEvent))
    (hnotes : ∀ m ∈ notes, ∃ c n v, c < 16 ∧ m = sendNoteData c n v) :
    ∃ hostPart : List MidiEvent,
      (jackProcess load st prevTime rolling pos notes fetches).2.2.1 =
        (notes.take (min notes.length 512)).map mkUiEvent ++ hostPart ∧
      (∀ e ∈ (notes.take (min notes.length 512)).map mkUiEvent,
        e.frame = 0 ∧ e.size = 3 ∧
        ∃ c n v, c < 16 ∧ e.data = sendNoteData c n v ∧
          (v ≠ 0 → e.data.headD 0 = 0x90 ||| c) ∧
          (v = 0 → e.data.headD 0 = 0x80 ||| c)) ∧
      List.Pairwise (fun a b : MidiEvent => a.frame ≤ b.frame)
        ((notes.take (min notes.length 512)).map mkUiEvent) := by
  have hd := drainNotes_eq notes 0 (by norm_num)
  rw [Nat.sub_zero] at hd
  refine ⟨(hostEventLoop load { st with slots := updateParameterTriggers st.slots }
      (fetches.take (min (512 - (drainNotes 0 notes).1.length) fetches.length))).2,
    ?_, ?_, ?_⟩
  · show (drainNotes 0 notes).1 ++ _ = _
    rw [hd]
  · intro e he
    rcases List.mem_map.mp he with ⟨m, hm, rfl⟩
    rcases hnotes m (List.take_subset _ _ hm) with ⟨c, n, v, hc, rfl⟩
    refine ⟨rfl, rfl, c, n, v, hc, ?_, ?_, ?_⟩
    · simp [mkUiEvent, sendNoteData]
    · intro hv
      simp [mkUiEvent, sendNoteData, hv]
    · intro hv
      simp [mkUiEvent, sendNoteData, hv]
  · apply pairwise_frame_le_of_zero
    intro e he
    rcases List.mem_map.mp he with ⟨m, _, rfl⟩
    rfl

/-- Witness for C7: a single queued `sendNote 0 60 100` message yields a
merged list beginning with the frame-0, size-3, `0x90`-status event built from
it, ahead of any host part. -/
theorem c7_ui_events_first_witness :
    ∃ hostPart : List MidiEvent,
      (jackProcess loadId emptyBridge timeZero false posZero [c4Note] []).2.2.1 =
        [mkUiEvent c4Note] ++ hostPart ∧
      (∀ e ∈ [mkUiEvent c4Note],
        e.frame = 0 ∧ e.size = 3 ∧
        ∃ c n v, c < 16 ∧ e.data = sendNoteData c n v ∧
          (v ≠ 0 → e.data.headD 0 = 0x90 ||| c) ∧
          (v = 0 → e.data.headD 0 = 0x80 ||| c)) ∧
      List.Pairwise (fun a b : MidiEvent => a.frame ≤ b.frame) [mkUiEvent c4Note] := by
  exact c7_ui_events_first loadId emptyBridge timeZero false posZero [c4Note] []
    (by
      intro m hm
      rcases List.mem_singleton.mp hm with rfl
      exact ⟨0, 60, 100, by norm_num, rfl⟩)

/-- A poll transforms each slot independently by `pollSlotStep`. -/
theorem pollAux_snd (ss : List ParamSlot) (i : Nat) :
    (pollAux i ss).2 = ss.map pollSlotStep := by
  induction ss generalizing i with
  | nil => rfl
  | cons s ts ih =>
    simp only [pollAux, List.map_cons]
    by_cases ho : s.param.isOutput
    · by_cases he : d_isEqual s.lastOutput s.param.value
      · simp [pollSlotStep, ho, he, ih]
      · simp [pollSlotStep, ho, he, ih]
    · by_cases hc : s.changed
      · simp [pollSlotStep, ho, hc, ih]
      · simp [pollSlotStep, ho, hc, ih]

/-- Every notification emitted by `pollAux i` carries an index at least `i`. -/
theorem pollAux_fst_indices (ss : List ParamSlot) (i : Nat) :
    ∀ e ∈ (pollAux i ss).1, i ≤ e.1 := by
  induction ss generalizing i with
  | nil => simp [pollAux]
  | cons s ts ih =>
    intro e he
    have step : ∀ x ∈ (pollAux (i + 1) ts).1, i ≤ x.1 := fun x hx =>
      le_trans (Nat.le_succ i) (ih (i + 1) x hx)
    simp only [pollAux] at he
    split at he
    · split at he
      · exact step e he
      · rcases List.mem_cons.mp he with h | h
        · rw [h]
        · exact step e h
    · split at he
      · rcases List.mem_cons.mp he with h | h
        · rw [h]
        · exact step e h
      · exact step e he

/-- The notifications of one poll, restricted to a single index `i + k`, are
exactly what the slot at offset `k` emits. -/
theorem pollAux_fst_filter (ss : List ParamSlot) (i k : Nat) (s : ParamSlot)
    (hs : ss.get? k = some s) :
    (pollAux i ss).1.filter (fun e => e.1 == i + k) =
      ((pollEmit s).map fun v => (i + k, v)).toList := by
  induction ss generalizing i k with
  | nil => simp at hs
  | cons hd tl ih =>
    have htail0 : (pollAux (i + 1) tl).1.filter (fun e => e.1 == i) = [] := by
      refine List.filter_eq_nil_iff.mpr ?_
      intro e he
      have := pollAux_fst_indices tl (i + 1) e he
      simp only [beq_iff_eq]
      omega
    cases k with
    | zero =>
      simp only [List.get?] at hs
      cases hs
      simp only [pollAux, Nat.add_zero, pollEmit]
      by_cases ho : s.param.isOutput
      · by_cases hemit : d_isEqual s.lastOutput s.param.value
        · simp [ho, hemit, htail0]
        · simp [ho, hemit, htail0]
      · by_cases hc : s.changed
        · simp [ho, hc, htail0]
        · simp [ho, hc, htail0]
    | succ k' =>
      simp only [List.get?] at hs
      have hne : (i == i + (k' + 1)) = false := by
        simp only [beq_eq_false_iff_ne]
        omega
      have hrec := ih (i + 1) k' hs
      have harith : i + 1 + k' = i + (k' + 1) := by omega
      rw [harith] at hrec
      simp only [pollAux]
      by_cases ho : hd.param.isOutput
      · by_cases hemit : d_isEqual hd.lastOutput hd.param.value
        · simpa [ho, hemit] using hrec
        · simpa [ho, hemit, hne] using hrec
      · by_cases hc : hd.changed
        · simpa [ho, hc, hne] using hrec
        · simpa [ho, hc] using hrec

/-- The notifications of one poll are in strictly ascending index order. -/
theorem pollAux_fst_pairwise (ss : List ParamSlot) (i : Nat) :
    List.Pairwise (fun a b : Nat × ℚ => a.1 < b.1) (pollAux i ss).1 := by
  induction ss generalizing i with
  | nil => simp [pollAux]
  | cons s ts ih =>
    have hhead : ∀ e ∈ (pollAux (i + 1) ts).1, i < e.1 := fun e he =>
      lt_of_lt_of_le (Nat.lt_succ_self i) (pollAux_fst_indices ts (i + 1) e he)
    simp only [pollAux]
    by_cases ho : s.param.isOutput
    · by_cases hemit : d_isEqual s.lastOutput s.param.value
      · simp only [ho, if_true, hemit]
        exact ih (i + 1)
      · simp only [ho, if_true, hemit, if_false]
        exact List.Pairwise.cons hhead (ih (i + 1))
    · by_cases hc : s.changed
      · simp only [ho, if_false, hc, if_true]
        exact List.Pairwise.cons hhead (ih (i + 1))
      · simp only [ho, if_false, hc]
        exact ih (i + 1)

/-- C6: after an input parameter's dirty flag is set, the next poll emits
exactly one `(index, current value)` notification for it and clears the flag,
and a further poll without a new mark emits none; an input parameter that is
not dirty is not notified; an output parameter is notified exactly when its
current value is not approximately equal to the cached last-seen value, after
which the cache holds the current value; notifications within one poll are in
ascending parameter-index order. -/
theorem c6_poll_dirty_semantics (slots : List ParamSlot) (k : Nat) (s : ParamSlot)
    (hs : slots.get? k = some s) :
    (s.param.isOutput = false → s.changed = true →
      (pollOutputs slots).1.filter (fun e => e.1 == k) = [(k, s.param.value)] ∧
      (pollOutputs slots).2.get? k = some { s with changed := false } ∧
      (pollOutputs (pollOutputs slots).2).1.filter (fun e => e.1 == k) = []) ∧
    (s.param.isOutput = false → s.changed = false →
      (pollOutputs slots).1.filter (fun e => e.1 == k) = [] ∧
      (pollOutputs slots).2.get? k = some s) ∧
    (s.param.isOutput = true → d_isEqual s.lastOutput s.param.value = true →
      (pollOutputs slots).1.filter (fun e => e.1 == k) = [] ∧
      (pollOutputs slots).2.get? k = some s) ∧
    (s.param.isOutput = true → d_isEqual s.lastOutput s.param.value = false →
      (pollOutputs slots).1.filter (fun e => e.1 == k) = [(k, s.param.value)] ∧
      (pollOutputs slots).2.get? k = some { s with lastOutput := s.param.value }) ∧
    List.Pairwise (fun a b : Nat × ℚ => a.1 < b.1) (pollOutputs slots).1 := by
  have hfil : ∀ (ss : List ParamSlot) (x : ParamSlot), ss.get? k = some x →
      (pollOutputs ss).1.filter (fun e => e.1 == k) =
        ((pollEmit x).map fun v => (k, v)).toList := by
    intro ss x hx
    have := pollAux_fst_filter ss 0 k x hx
    rwa [Nat.zero_add] at this
  have hsnd : (pollOutputs slots).2.get? k = (slots.get? k).map pollSlotStep := by
    rw [pollOutputs, pollAux_snd, List.get?_map]
  refine ⟨?_, ?_, ?_, ?_, pollAux_fst_pairwise slots 0⟩
  · intro ho hc
    have h1 : (pollOutputs slots).1.filter (fun e => e.1 == k) = [(k, s.param.value)] := by
      rw [hfil slots s hs]
      simp [pollEmit, ho, hc]
    have h2 : (pollOutputs slots).2.get? k = some { s with changed := false } := by
      rw [hsnd, hs]
      simp [pollSlotStep, ho, hc]
    refine ⟨h1, h2, ?_⟩
    rw [hfil (pollOutputs slots).2 { s with changed := false } h2]
    simp [pollEmit, ho]
  · intro ho hc
    constructor
    · rw [hfil slots s hs]
      simp [pollEmit, ho, hc]
    · rw [hsnd, hs]
      simp [pollSlotStep, ho, hc]
  · intro ho he
    constructor
    · rw [hfil slots s hs]
      simp [pollEmit, ho, he]
    · rw [hsnd, hs]
      simp [pollSlotStep, ho, he]
  · intro ho he
    constructor
    · rw [hfil slots s hs]
      simp [pollEmit, ho, he]
    · rw [hsnd, hs]
      simp [pollSlotStep, ho, he]

/-- Witness for C6: on `c6Slots` the first poll notifies the dirty input
parameter 0 with its current value 5 and clears its flag, a second poll emits
nothing for it, the output parameter 1 (cached 0, current 9) is notified, and
the emitted indices ascend. -/
theorem c6_poll_dirty_semantics_witness :
    (pollOutputs c6Slots).1.filter (fun e => e.1 == 0) = [(0, (5 : ℚ))] ∧
    (pollOutputs (pollOutputs c6Slots).2).1.filter (fun e => e.1 == 0) = [] ∧
    (pollOutputs c6Slots).1.filter (fun e => e.1 == 1) = [(1, (9 : ℚ))] ∧
    List.Pairwise (fun a b : Nat × ℚ => a.1 < b.1) (pollOutputs c6Slots).1 := by
  have h0 := c6_poll_dirty_semantics c6Slots 0
    { param := { value := 5, isOutput := false, hints := 0, midiCC := 0,
                 ranges := { defValue := 0, minValue := 0, maxValue := 10 } }
      changed := true, lastOutput := 0 } (by decide)
  have h1 := c6_poll_dirty_semantics c6Slots 1
    { param := { value := 9, isOutput := true, hints := 0, midiCC := 0,
                 ranges := { defValue := 0, minValue := 0, maxValue := 10 } }
      changed := false, lastOutput := 0 } (by decide)
  exact ⟨(h0.1 rfl rfl).1, (h0.1 rfl rfl).2.2, (h1.2.2.2.1 rfl (by decide)).1, h0.2.2.2.2⟩

/-- Every UI call emitted by the constructor's parameter loop is a
`parameterChanged` notification with index at least the loop's start. -/
theorem constructorParamNotifications_shape (params : List Parameter) (j : Nat) :
    ∀ c ∈ constructorParamNotifications j params,
      ∃ idx val, c = UICall.parameterChanged idx val ∧ j ≤ idx := by
  induction params generalizing j with
  | nil => simp [constructorParamNotifications]
  | cons p ps ih =>
    intro c hc
    simp only [constructorParamNotifications] at hc
    split at hc
    · rcases ih (j + 1) c hc with ⟨idx, val, rfl, hle⟩
      exact ⟨idx, val, rfl, by omega⟩
    · rcases List.mem_cons.mp hc with h | h
      · exact ⟨j, p.value, h, le_refl j⟩
      · rcases ih (j + 1) c h with ⟨idx, val, rfl, hle⟩
        exact ⟨idx, val, rfl, by omega⟩

/-- The constructor's parameter loop notifies a non-output parameter exactly
once. -/
theorem constructorParamNotifications_countP (params : List Parameter) (j i : Nat)
    (p : Parameter) (hp : params.get? i = some p) (hout : p.isOutput = false) :
    (constructorParamNotifications j params).countP (isParamChangedFor (j + i)) = 1 := by
  induction params generalizing j i with
  | nil => simp at hp
  | cons q qs ih =>
    cases i with
    | zero =>
      simp only [List.get?] at hp
      cases hp
      have htail : (constructorParamNotifications (j + 1) qs).countP
          (isParamChangedFor j) = 0 := by
        refine List.countP_eq_zero.mpr ?_
        intro c hc
        rcases constructorParamNotifications_shape qs (j + 1) c hc with ⟨idx, val, rfl, hle⟩
        simp only [isParamChangedFor, beq_eq_false_iff_ne, ne_eq, Bool.not_eq_true]
        omega
      simp only [constructorParamNotifications, hout, Bool.false_eq_true, if_false,
        Nat.add_zero, List.countP_cons, htail]
      simp [isParamChangedFor]
    | succ i' =>
      simp only [List.get?] at hp
      have harith : j + 1 + i' = j + (i' + 1) := by omega
      by_cases hq : q.isOutput
      · simp only [constructorParamNotifications, hq, if_true]
        have := ih (j + 1) i' hp
        rwa [harith] at this
      · simp only [constructorParamNotifications, hq, Bool.false_eq_true, if_false,
          List.countP_cons]
        have hhead : isParamChangedFor (j + (i' + 1)) (UICall.parameterChanged j q.value)
            = false := by
          simp only [isParamChangedFor, beq_eq_false_iff_ne, ne_eq]
          omega
        have := ih (j + 1) i' hp
        rw [harith] at this
        simp [this, hhead]

/-- The constructor's parameter loop does notify each non-output parameter
with its current value. -/
theorem constructorParamNotifications_mem (params : List Parameter) (j i : Nat)
    (p : Parameter) (hp : params.get? i = some p) (hout : p.isOutput = false) :
    UICall.parameterChanged (j + i) p.value ∈ constructorParamNotifications j params := by
  induction params generalizing j i with
  | nil => simp at hp
  | cons q qs ih =>
    cases i with
    | zero =>
      simp only [List.get?] at hp
      cases hp
      simp only [constructorParamNotifications, hout, Bool.false_eq_true, if_false,
        Nat.add_zero]
      exact List.mem_cons_self _ _
    | succ i' =>
      simp only [List.get?] at hp
      have harith : j + 1 + i' = j + (i' + 1) := by omega
      have htail := ih (j + 1) i' hp
      rw [harith] at htail
      by_cases hq : q.isOutput
      · simpa only [constructorParamNotifications, hq, if_true] using htail
      · simp only [constructorParamNotifications, hq, Bool.false_eq_true, if_false]
        exact List.mem_cons_of_mem _ htail

/-- C10: after construction completes (before the first idle tick), every
non-output parameter's current value has been delivered to the UI exactly once
via `parameterChanged`; every dirty flag is clear and every cached last-output
value is zero; no program-change notification is pending; and when the plugin
has at least one program, exactly program 0 has been loaded into the DSP core
and `programLoaded(0)` delivered to the UI. -/
theorem c10_constructor_init (load : LoadFn) (params0 : List Parameter)
    (programCount : Nat) :
    (∀ i p, (if 0 < programCount then load 0 params0 else params0).get? i = some p →
      p.isOutput = false →
      (constructorInit load params0 programCount).2.countP (isParamChangedFor i) = 1 ∧
      UICall.parameterChanged i p.value ∈ (constructorInit load params0 programCount).2) ∧
    (∀ s ∈ (constructorInit load params0 programCount).1.slots,
      s.changed = false ∧ s.lastOutput = 0) ∧
    (constructorInit load params0 programCount).1.programChanged = -1 ∧
    (0 < programCount →
      (constructorInit load params0 programCount).1.dspProgramLoads = [0] ∧
      UICall.programLoaded 0 ∈ (constructorInit load params0 programCount).2) ∧
    (programCount = 0 →
      (constructorInit load params0 programCount).1.dspProgramLoads = []) := by
  have hsnd : (constructorInit load params0 programCount).2 =
      (if 0 < programCount then [UICall.programLoaded 0] else []) ++
        constructorParamNotifications 0
          (if 0 < programCount then load 0 params0 else params0) := rfl
  refine ⟨?_, ?_, rfl, ?_, ?_⟩
  · intro i p hp hout
    constructor
    · rw [hsnd, List.countP_append]
      have h1 : (if 0 < programCount then [UICall.programLoaded 0] else []).countP
          (isParamChangedFor i) = 0 := by
        split
        · simp [isParamChangedFor]
        · simp
      have h2 := constructorParamNotifications_countP
        (if 0 < programCount then load 0 params0 else params0) 0 i p hp hout
      rw [Nat.zero_add] at h2
      omega
    · rw [hsnd]
      refine List.mem_append_right _ ?_
      have := constructorParamNotifications_mem
        (if 0 < programCount then load 0 params0 else params0) 0 i p hp hout
      rwa [Nat.zero_add] at this
  · intro s hsm
    have hslots : (constructorInit load params0 programCount).1.slots =
        (if 0 < programCount then load 0 params0 else params0).map
          (fun p => { param := p, changed := false, lastOutput := 0 }) := rfl
    rw [hslots] at hsm
    rcases List.mem_map.mp hsm with ⟨p, _, rfl⟩
    exact ⟨rfl, rfl⟩
  · intro h
    constructor
    · show (if 0 < programCount then [0] else ([] : List Nat)) = [0]
      rw [if_pos h]
    · rw [hsnd, if_pos h]
      exact List.mem_append_left _ (List.mem_cons_self _ _)
  · intro h
    show (if 0 < programCount then [0] else ([] : List Nat)) = []
    rw [if_neg (by omega)]

/-- Witness for C10: constructing with `c10Params` and one program delivers
the input parameter's value 3 exactly once, leaves no pending program change,
loads exactly program 0 into the DSP core and delivers `programLoaded 0`. -/
theorem c10_constructor_init_witness :
    (constructorInit loadId c10Params 1).2.countP (isParamChangedFor 0) = 1 ∧
    UICall.parameterChanged 0 3 ∈ (constructorInit loadId c10Params 1).2 ∧
    (constructorInit loadId c10Params 1).1.programChanged = -1 ∧
    (constructorInit loadId c10Params 1).1.dspProgramLoads = [0] ∧
    UICall.programLoaded 0 ∈ (constructorInit loadId c10Params 1).2 := by
  have h := c10_constructor_init loadId c10Params 1
  have h1 := h.1 0
    { value := 3, isOutput := false, hints := 0, midiCC := 0,
      ranges := { defValue := 0, minValue := 0, maxValue := 10 } } (by decide) rfl
  exact ⟨h1.1, h1.2, h.2.2.1, (h.2.2.2.1 (by decide)).1, (h.2.2.2.1 (by decide)).2⟩

end DPF
